import Mathlib

/-!
Verification of the adaptive Kalman filter estimator of
`src/pyquantlab/adaptive_kalman_filter/strategy.py`
(class AdaptiveKalmanFilterStrategy).

Shallow embedding conventions:
* Python floats are modelled by `ℚ` (exact arithmetic); the decimal literals
  of the source (`1e-8`, `1e-4`, `0.1`, `0.5`, `1.0`) are exact in `ℚ`.
* A possibly-NaN float input is modelled by a rational value together with a
  Boolean NaN flag, because the source only ever uses `np.isnan` as a test on
  its inputs (`price`, `self.volatility[0]`) before using the value.
* `len(self)` (the number of bars processed so far, maintained by the host
  backtest framework and incremented before each `next` call) is modelled by
  the `length` field of the state, incremented at the top of `next`.
* The plotting lines written by a full filter cycle are modelled as the
  `Estimate` record returned by `next`; the two early-return paths return
  `none` ("not ready").  The trading block at the end of `next` (buy/sell on
  the sign of the velocity) only touches the broker position, never the
  filter state, and is outside every claim, so it is not embedded.
-/

namespace AdaptiveKF

/-- Configuration of the strategy: the `params` dict of the source
(`vol_period`, `delta`, `R_base`, `R_scale`, `Q_scale_factor`,
`initial_cov`).  `vol_period` is a Python `int`, hence `ℤ`. -/
structure Params where
  vol_period : ℤ
  delta : ℚ
  R_base : ℚ
  R_scale : ℚ
  Q_scale_factor : ℚ
  initial_cov : ℚ
deriving DecidableEq

/-- The default parameter values of the source `params` dict. -/
def defaultParams : Params :=
  { vol_period := 20
    delta := 1 / 10000
    R_base := 1 / 10
    R_scale := 1
    Q_scale_factor := 1 / 2
    initial_cov := 1 }

/-- A 2x2 rational matrix, row major: `a = M[0,0]`, `b = M[0,1]`,
`c = M[1,0]`, `d = M[1,1]`. -/
structure Mat2 where
  a : ℚ
  b : ℚ
  c : ℚ
  d : ℚ
deriving DecidableEq

/-- A 2-vector of rationals. -/
structure Vec2 where
  x0 : ℚ
  x1 : ℚ
deriving DecidableEq

namespace Mat2

/-- `np.eye(2)`. -/
def eye : Mat2 := ⟨1, 0, 0, 1⟩

/-- Scalar multiple of a matrix (numpy `s * M`). -/
def smul (s : ℚ) (M : Mat2) : Mat2 := ⟨s * M.a, s * M.b, s * M.c, s * M.d⟩

/-- `np.diag([x, y])`. -/
def diag (x y : ℚ) : Mat2 := ⟨x, 0, 0, y⟩

/-- Matrix sum. -/
def add (M N : Mat2) : Mat2 := ⟨M.a + N.a, M.b + N.b, M.c + N.c, M.d + N.d⟩

/-- Matrix difference. -/
def sub (M N : Mat2) : Mat2 := ⟨M.a - N.a, M.b - N.b, M.c - N.c, M.d - N.d⟩

/-- Matrix product (`M.dot(N)`). -/
def mul (M N : Mat2) : Mat2 :=
  ⟨M.a * N.a + M.b * N.c, M.a * N.b + M.b * N.d,
   M.c * N.a + M.d * N.c, M.c * N.b + M.d * N.d⟩

/-- Matrix transpose (`M.T`). -/
def transpose (M : Mat2) : Mat2 := ⟨M.a, M.c, M.b, M.d⟩

end Mat2

/-- Matrix-vector product `M.dot(v)`. -/
def matVec (M : Mat2) (v : Vec2) : Vec2 :=
  ⟨M.a * v.x0 + M.b * v.x1, M.c * v.x0 + M.d * v.x1⟩

/-- Row-vector-matrix product `v.dot(M)` (for a 1x2 row `v`). -/
def vecMat (v : Vec2) (M : Mat2) : Vec2 :=
  ⟨v.x0 * M.a + v.x1 * M.c, v.x0 * M.b + v.x1 * M.d⟩

/-- Dot product of two 2-vectors. -/
def dotv (u v : Vec2) : ℚ := u.x0 * v.x0 + u.x1 * v.x1

/-- Outer product of a column 2-vector with a row 2-vector
(`K.dot(H)` for `K` of shape (2,1) and `H` of shape (1,2)). -/
def outer (u v : Vec2) : Mat2 :=
  ⟨u.x0 * v.x0, u.x0 * v.x1, u.x1 * v.x0, u.x1 * v.x1⟩

/-- The constant-velocity transition matrix `self.F = [[1,1],[0,1]]`. -/
def Fmat : Mat2 := ⟨1, 1, 0, 1⟩

/-- The observation row `self.H = [[1, 0]]`. -/
def Hvec : Vec2 := ⟨1, 0⟩

/-- The volatility floor `1e-8` of `max(vol, 1e-8)` (line 86). -/
def volFloor : ℚ := 1 / 100000000

/-- The mutable filter state of the strategy instance:
`len(self)` (as `length`), `self.x = [level, velocity]`, `self.P`,
`self.Q`, `self.R`, `self.initialized`. -/
structure KFState where
  length : ℕ
  level : ℚ
  velocity : ℚ
  P : Mat2
  Q : Mat2
  R : ℚ
  initialized : Bool
deriving DecidableEq

/-- One input bar: the close price `self.data_close[0]` and the rolling
volatility `self.volatility[0]`, each with its `np.isnan` flag. -/
structure Tick where
  price : ℚ
  priceNaN : Bool
  vol : ℚ
  volNaN : Bool
deriving DecidableEq

/-- The values written to the plot lines by a full filter cycle
(lines 99-103 of the source). -/
structure Estimate where
  kf_price : ℚ
  kf_velocity : ℚ
  adaptive_R : ℚ
  adaptive_Q0 : ℚ
  adaptive_Q1 : ℚ
deriving DecidableEq

/-- The state set up by `__init__` (lines 33-48): `x = zeros(2)`,
`P = eye(2) * initial_cov`, `initialized = False`,
`Q = eye(2) * delta`, `R = R_base`; no bars processed yet. -/
def initState (p : Params) : KFState :=
  { length := 0
    level := 0
    velocity := 0
    P := Mat2.smul p.initial_cov Mat2.eye
    Q := Mat2.smul p.delta Mat2.eye
    R := p.R_base
    initialized := false }

/-- `_initialize_kalman` (lines 59-63): `x[:] = [price, 0.0]`,
`P = eye(2) * initial_cov`, `initialized = True`.  (`Q`, `R` untouched.) -/
def initKalman (p : Params) (price : ℚ) (s : KFState) : KFState :=
  { s with level := price, velocity := 0,
           P := Mat2.smul p.initial_cov Mat2.eye,
           initialized := true }

/-- All intermediate values of one full filter cycle
(lines 81-96 of the source), in source order. -/
structure CycleTrace where
  x1 : Vec2
  P1 : Mat2
  v : ℚ
  R : ℚ
  qvar : ℚ
  Q : Mat2
  y : ℚ
  S : ℚ
  K : Vec2
  x2 : Vec2
  P2 : Mat2

/-- One full filter cycle, translated line by line from the source:
Predict (82-83): `x = F.dot(x)`, `P = F.dot(P).dot(F.T) + Q`;
Adapt (86-89): `vol = max(vol, 1e-8)`, `R = R_base * (1 + R_scale * vol)`,
`qvar = delta * (1 + Q_scale_factor * vol**2)`, `Q = diag([qvar, qvar])`;
Update (92-96): `y = price - H.dot(x)[0]`,
`S = H.dot(P).dot(H.T)[0,0] + R`, `K = P.dot(H.T) / S`,
`x = x + K.flatten() * y`, `P = (I - K.dot(H)).dot(P)`. -/
def kalmanCycle (p : Params) (price vol : ℚ) (s : KFState) : CycleTrace :=
  let x1 : Vec2 := matVec Fmat ⟨s.level, s.velocity⟩
  let P1 : Mat2 := Mat2.add (Mat2.mul (Mat2.mul Fmat s.P) Fmat.transpose) s.Q
  let v : ℚ := max vol volFloor
  let R : ℚ := p.R_base * (1 + p.R_scale * v)
  let qvar : ℚ := p.delta * (1 + p.Q_scale_factor * v ^ 2)
  let Q : Mat2 := Mat2.diag qvar qvar
  let y : ℚ := price - dotv Hvec x1
  let S : ℚ := dotv (vecMat Hvec P1) Hvec + R
  let PHt : Vec2 := matVec P1 Hvec
  let K : Vec2 := ⟨PHt.x0 / S, PHt.x1 / S⟩
  let x2 : Vec2 := ⟨x1.x0 + K.x0 * y, x1.x1 + K.x1 * y⟩
  let P2 : Mat2 := Mat2.mul (Mat2.sub Mat2.eye (outer K Hvec)) P1
  ⟨x1, P1, v, R, qvar, Q, y, S, K, x2, P2⟩

/-- One call of `next` (lines 65-103).  The returned `Option Estimate` is
`none` on the two early-return paths (warm-up, lines 69-72, and the NaN
path, lines 76-79) and `some` of the recorded line values after a full
cycle. -/
def next (p : Params) (t : Tick) (s0 : KFState) : KFState × Option Estimate :=
  let s : KFState := { s0 with length := s0.length + 1 }
  if s.initialized = false then
    if p.vol_period < (s.length : ℤ) ∧ t.volNaN = false then
      (initKalman p t.price s, none)
    else
      (s, none)
  else if t.volNaN = true ∨ t.priceNaN = true then
    (s, none)
  else
    let c := kalmanCycle p t.price t.vol s0
    ({ s with level := c.x2.x0, velocity := c.x2.x1,
              P := c.P2, Q := c.Q, R := c.R },
     some { kf_price := c.x2.x0, kf_velocity := c.x2.x1,
            adaptive_R := c.R, adaptive_Q0 := c.Q.a, adaptive_Q1 := c.Q.d })

/-- Iterate `next` over the input stream `f`, starting from state `s`:
`runFrom p f s n` is the state after the first `n` calls. -/
def runFrom (p : Params) (f : ℕ → Tick) (s : KFState) : ℕ → KFState
  | 0 => s
  | n + 1 => (next p (f n) (runFrom p f s n)).1

/-- The state after the first `n` calls of a run from construction. -/
def runN (p : Params) (f : ℕ → Tick) (n : ℕ) : KFState :=
  runFrom p f (initState p) n

/-- The output of call `n` (0-based) of a run from construction. -/
def outN (p : Params) (f : ℕ → Tick) (n : ℕ) : Option Estimate :=
  (next p (f n) (runN p f n)).2

end AdaptiveKF

namespace AdaptiveKF

/-! ### Branch lemmas for `next`

One lemma per control path of the source `next` (warm-up skip, warm-up
initialization, NaN early return, full cycle). -/

theorem next_warmup_skip (p : Params) (t : Tick) (s : KFState)
    (h1 : s.initialized = false)
    (h2 : ¬ (p.vol_period < (s.length : ℤ) + 1 ∧ t.volNaN = false)) :
    next p t s = ({ s with length := s.length + 1 }, none) := by
  simp [next, h1]
  intro hA hB
  exact absurd ⟨by exact_mod_cast hA, hB⟩ h2

theorem next_warmup_init (p : Params) (t : Tick) (s : KFState)
    (h1 : s.initialized = false)
    (h2 : p.vol_period < (s.length : ℤ) + 1) (h3 : t.volNaN = false) :
    next p t s =
      (KFState.mk (s.length + 1) t.price 0 (Mat2.smul p.initial_cov Mat2.eye) s.Q s.R true,
       none) := by
  simp [next, initKalman, h1, h3]
  exact_mod_cast h2

theorem next_nan (p : Params) (t : Tick) (s : KFState)
    (h1 : s.initialized = true) (h2 : t.volNaN = true ∨ t.priceNaN = true) :
    next p t s = ({ s with length := s.length + 1 }, none) := by
  rcases h2 with h | h <;> simp [next, h1, h]

theorem next_ready (p : Params) (t : Tick) (s : KFState)
    (h1 : s.initialized = true) (h2 : t.volNaN = false) (h3 : t.priceNaN = false) :
    next p t s =
      (KFState.mk (s.length + 1)
        (kalmanCycle p t.price t.vol s).x2.x0
        (kalmanCycle p t.price t.vol s).x2.x1
        (kalmanCycle p t.price t.vol s).P2
        (kalmanCycle p t.price t.vol s).Q
        (kalmanCycle p t.price t.vol s).R
        true,
       some (Estimate.mk
        (kalmanCycle p t.price t.vol s).x2.x0
        (kalmanCycle p t.price t.vol s).x2.x1
        (kalmanCycle p t.price t.vol s).R
        (kalmanCycle p t.price t.vol s).Q.a
        (kalmanCycle p t.price t.vol s).Q.d)) := by
  simp [next, h1, h2, h3]

/-! ### The specification's formulas

These definitions transcribe the equations of spec sections 4.1
("Predict", "Adapt noise", "Update") word for word, to be compared with
the source translation `kalmanCycle`. -/

/-- Spec: propagate covariance P1 = F.P.Ft + Q
(constant-velocity transition matrix [[1,1],[0,1]]). -/
def predictCov (P Q : Mat2) : Mat2 :=
  Mat2.add (Mat2.mul (Mat2.mul Fmat P) Fmat.transpose) Q

/-- Spec: v = max(volatility, 1e-8);
R = baseMeasurementNoise * (1 + measurementNoiseVolScale * v). -/
def adaptR (p : Params) (vol : ℚ) : ℚ :=
  p.R_base * (1 + p.R_scale * max vol volFloor)

/-- Spec: qVar = baseProcessNoise * (1 + processNoiseVolScale * v^2)
with v = max(volatility, 1e-8). -/
def adaptQvar (p : Params) (vol : ℚ) : ℚ :=
  p.delta * (1 + p.Q_scale_factor * (max vol volFloor) ^ 2)

/-- Spec: the updated covariance P2 = (I - K.H).P1 with gain
K = P1.Ht / S and S = P1[0,0] + R. -/
def updateCov (P1 : Mat2) (R : ℚ) : Mat2 :=
  Mat2.mul
    (Mat2.sub Mat2.eye (outer ⟨P1.a / (P1.a + R), P1.c / (P1.a + R)⟩ Hvec))
    P1

/-- The source cycle realizes the specification formulas: every
intermediate of `kalmanCycle` equals the corresponding spec expression. -/
theorem cycle_eq (p : Params) (price vol : ℚ) (s : KFState) :
    kalmanCycle p price vol s =
      { x1 := ⟨s.level + s.velocity, s.velocity⟩
        P1 := predictCov s.P s.Q
        v := max vol volFloor
        R := adaptR p vol
        qvar := adaptQvar p vol
        Q := Mat2.diag (adaptQvar p vol) (adaptQvar p vol)
        y := price - (s.level + s.velocity)
        S := (predictCov s.P s.Q).a + adaptR p vol
        K := ⟨(predictCov s.P s.Q).a / ((predictCov s.P s.Q).a + adaptR p vol),
              (predictCov s.P s.Q).c / ((predictCov s.P s.Q).a + adaptR p vol)⟩
        x2 := ⟨(s.level + s.velocity) +
                 ((predictCov s.P s.Q).a / ((predictCov s.P s.Q).a + adaptR p vol)) *
                   (price - (s.level + s.velocity)),
               s.velocity +
                 ((predictCov s.P s.Q).c / ((predictCov s.P s.Q).a + adaptR p vol)) *
                   (price - (s.level + s.velocity))⟩
        P2 := updateCov (predictCov s.P s.Q) (adaptR p vol) } := by
  simp [kalmanCycle, predictCov, adaptR, adaptQvar, updateCov, matVec, vecMat, dotv,
        outer, Mat2.mul, Mat2.add, Mat2.sub, Mat2.eye, Mat2.diag, Mat2.transpose,
        Fmat, Hvec, CycleTrace.mk.injEq, Mat2.mk.injEq, Vec2.mk.injEq]

end AdaptiveKF

namespace AdaptiveKF

namespace Mat2

/-- The quadratic form `x y -> (x y) M (x y)^T` of a 2x2 matrix. -/
def qform (M : Mat2) (x y : ℚ) : ℚ :=
  x * (M.a * x + M.b * y) + y * (M.c * x + M.d * y)

/-- Symmetry of a 2x2 matrix. -/
def Symm (M : Mat2) : Prop := M.b = M.c

/-- Positive semidefiniteness: the quadratic form is nonnegative on every
vector (equivalently, for a symmetric 2x2 matrix: both eigenvalues are
nonnegative). -/
def PSD (M : Mat2) : Prop := ∀ x y : ℚ, 0 ≤ M.qform x y

theorem PSD.a_nonneg {M : Mat2} (h : M.PSD) : 0 ≤ M.a := by
  have := h 1 0; simpa [qform] using this

theorem PSD.d_nonneg {M : Mat2} (h : M.PSD) : 0 ≤ M.d := by
  have := h 0 1; simpa [qform] using this

theorem PSD.det_nonneg {M : Mat2} (hs : M.Symm) (h : M.PSD) :
    0 ≤ M.a * M.d - M.b * M.c := by
  have hb : M.b = M.c := hs
  have key : ∀ x : ℚ, 0 ≤ M.a * (x * x) + (M.b + M.c) * x + M.d := by
    intro x
    have := h x 1
    simp [qform] at this
    nlinarith [this]
  have hd := discrim_le_zero key
  simp [discrim] at hd
  nlinarith [hd, hb]

end Mat2

/-- PSD is preserved by the predict step (spec data-model invariant). -/
theorem predictCov_symm {P Q : Mat2} (hP : P.Symm) (hQ : Q.Symm) :
    (predictCov P Q).Symm := by
  simp [Mat2.Symm, predictCov, Mat2.add, Mat2.mul, Mat2.transpose, Fmat] at *
  linarith

theorem predictCov_psd {P Q : Mat2} (hP : P.PSD) (hQ : Q.PSD) :
    (predictCov P Q).PSD := by
  intro x y
  have h1 := hP x (x + y)
  have h2 := hQ x y
  simp [Mat2.qform, predictCov, Mat2.add, Mat2.mul, Mat2.transpose, Fmat] at *
  nlinarith [h1, h2]

theorem updateCov_symm {P1 : Mat2} (R : ℚ) (hs : P1.Symm) :
    (updateCov P1 R).Symm := by
  have hb : P1.b = P1.c := hs
  simp [Mat2.Symm, updateCov, Mat2.mul, Mat2.sub, Mat2.eye, outer, Hvec, hb]
  ring

theorem updateCov_psd {P1 : Mat2} {R : ℚ} (hs : P1.Symm) (hp : P1.PSD)
    (hR : 0 < R) : (updateCov P1 R).PSD := by
  intro x y
  have ha : 0 ≤ P1.a := hp.a_nonneg
  have hdet : 0 ≤ P1.a * P1.d - P1.b * P1.c := Mat2.PSD.det_nonneg hs hp
  have hS : 0 < P1.a + R := by linarith
  have hq := hp x y
  have hb : P1.b = P1.c := hs
  have key : (updateCov P1 R).qform x y * (P1.a + R)
      = R * P1.qform x y + (P1.a * P1.d - P1.b * P1.c) * y ^ 2 := by
    simp [updateCov, Mat2.qform, Mat2.mul, Mat2.sub, Mat2.eye, outer, Hvec, hb]
    field_simp
    ring
  have hN : 0 ≤ R * P1.qform x y + (P1.a * P1.d - P1.b * P1.c) * y ^ 2 := by
    have := mul_nonneg hR.le hq
    have := mul_nonneg hdet (sq_nonneg y)
    linarith
  nlinarith [key, hN, hS]

theorem diag_symm (x y : ℚ) : (Mat2.diag x y).Symm := rfl

theorem diag_psd {x y : ℚ} (hx : 0 ≤ x) (hy : 0 ≤ y) : (Mat2.diag x y).PSD := by
  intro u v
  simp [Mat2.qform, Mat2.diag]
  nlinarith [mul_nonneg hx (sq_nonneg u), mul_nonneg hy (sq_nonneg v)]

theorem smul_eye_symm (s : ℚ) : (Mat2.smul s Mat2.eye).Symm := by
  simp [Mat2.Symm, Mat2.smul, Mat2.eye]

theorem smul_eye_psd {s : ℚ} (h : 0 ≤ s) : (Mat2.smul s Mat2.eye).PSD := by
  intro u v
  simp [Mat2.qform, Mat2.smul, Mat2.eye]
  nlinarith [mul_nonneg h (sq_nonneg u), mul_nonneg h (sq_nonneg v)]

end AdaptiveKF

namespace AdaptiveKF

/-- Parameter conditions under which the spec's data-model invariants hold:
positive base measurement noise, nonnegative noise scales, nonnegative
process noise and initial covariance scale. -/
def GoodParams (p : Params) : Prop :=
  0 < p.R_base ∧ 0 ≤ p.R_scale ∧ 0 ≤ p.delta ∧ 0 ≤ p.Q_scale_factor ∧
    0 ≤ p.initial_cov

/-- As `GoodParams`, but with strictly positive process noise. -/
def StrictParams (p : Params) : Prop :=
  0 < p.R_base ∧ 0 ≤ p.R_scale ∧ 0 < p.delta ∧ 0 ≤ p.Q_scale_factor ∧
    0 ≤ p.initial_cov

theorem StrictParams.good {p : Params} (h : StrictParams p) : GoodParams p :=
  ⟨h.1, h.2.1, h.2.2.1.le, h.2.2.2.1, h.2.2.2.2⟩

theorem volFloor_pos : (0 : ℚ) < volFloor := by norm_num [volFloor]

theorem maxVol_pos (vol : ℚ) : 0 < max vol volFloor :=
  lt_of_lt_of_le volFloor_pos (le_max_right _ _)

theorem adaptR_pos {p : Params} (hb : 0 < p.R_base) (hs : 0 ≤ p.R_scale)
    (vol : ℚ) : 0 < adaptR p vol := by
  have hv := maxVol_pos vol
  have h1 : 0 ≤ p.R_scale * max vol volFloor := mul_nonneg hs hv.le
  have h2 : (0 : ℚ) < 1 + p.R_scale * max vol volFloor := by linarith
  simpa [adaptR] using mul_pos hb h2

theorem adaptQvar_nonneg {p : Params} (hd : 0 ≤ p.delta)
    (hq : 0 ≤ p.Q_scale_factor) (vol : ℚ) : 0 ≤ adaptQvar p vol := by
  have h1 : 0 ≤ p.Q_scale_factor * (max vol volFloor) ^ 2 :=
    mul_nonneg hq (sq_nonneg _)
  have h2 : (0 : ℚ) ≤ 1 + p.Q_scale_factor * (max vol volFloor) ^ 2 := by linarith
  simpa [adaptQvar] using mul_nonneg hd h2

theorem adaptQvar_pos {p : Params} (hd : 0 < p.delta)
    (hq : 0 ≤ p.Q_scale_factor) (vol : ℚ) : 0 < adaptQvar p vol := by
  have h1 : 0 ≤ p.Q_scale_factor * (max vol volFloor) ^ 2 :=
    mul_nonneg hq (sq_nonneg _)
  have h2 : (0 : ℚ) < 1 + p.Q_scale_factor * (max vol volFloor) ^ 2 := by linarith
  simpa [adaptQvar] using mul_pos hd h2

/-- The spec's covariance invariant: the stored covariance and process-noise
matrices are symmetric and positive semidefinite. -/
def CovInv (s : KFState) : Prop := s.P.Symm ∧ s.P.PSD ∧ s.Q.Symm ∧ s.Q.PSD

/-- The spec's noise invariant: the stored measurement noise and the
diagonal of the stored process noise are strictly positive. -/
def NoisePos (s : KFState) : Prop := 0 < s.R ∧ 0 < s.Q.a ∧ 0 < s.Q.d

theorem covInv_init {p : Params} (hp : GoodParams p) : CovInv (initState p) :=
  ⟨smul_eye_symm _, smul_eye_psd hp.2.2.2.2, smul_eye_symm _,
   smul_eye_psd hp.2.2.1⟩

theorem covInv_step {p : Params} (hp : GoodParams p) (t : Tick) (s : KFState)
    (h : CovInv s) : CovInv (next p t s).1 := by
  obtain ⟨hb, hrs, hd, hqs, hic⟩ := hp
  obtain ⟨hPs, hPp, hQs, hQp⟩ := h
  by_cases h1 : s.initialized = true
  · by_cases h2 : t.volNaN = true ∨ t.priceNaN = true
    · rw [next_nan p t s h1 h2]
      exact ⟨hPs, hPp, hQs, hQp⟩
    · simp only [not_or, Bool.not_eq_true] at h2
      rw [next_ready p t s h1 h2.1 h2.2, cycle_eq]
      exact ⟨updateCov_symm _ (predictCov_symm hPs hQs),
             updateCov_psd (predictCov_symm hPs hQs)
               (predictCov_psd hPp hQp) (adaptR_pos hb hrs _),
             diag_symm _ _,
             diag_psd (adaptQvar_nonneg hd hqs _) (adaptQvar_nonneg hd hqs _)⟩
  · have h1f : s.initialized = false := by simpa using h1
    by_cases hc : p.vol_period < (s.length : ℤ) + 1 ∧ t.volNaN = false
    · rw [next_warmup_init p t s h1f hc.1 hc.2]
      exact ⟨smul_eye_symm _, smul_eye_psd hic, hQs, hQp⟩
    · rw [next_warmup_skip p t s h1f hc]
      exact ⟨hPs, hPp, hQs, hQp⟩

theorem covInv_run {p : Params} (hp : GoodParams p) (f : ℕ → Tick) (n : ℕ) :
    CovInv (runN p f n) := by
  induction n with
  | zero => exact covInv_init hp
  | succ n ih => exact covInv_step hp (f n) _ ih

theorem noisePos_init {p : Params} (hp : StrictParams p) :
    NoisePos (initState p) := by
  refine ⟨hp.1, ?_, ?_⟩ <;>
    simpa [initState, Mat2.smul, Mat2.eye] using hp.2.2.1

theorem noisePos_step {p : Params} (hp : StrictParams p) (t : Tick)
    (s : KFState) (h : NoisePos s) : NoisePos (next p t s).1 := by
  obtain ⟨hR, hQa, hQd⟩ := h
  by_cases h1 : s.initialized = true
  · by_cases h2 : t.volNaN = true ∨ t.priceNaN = true
    · rw [next_nan p t s h1 h2]
      exact ⟨hR, hQa, hQd⟩
    · simp only [not_or, Bool.not_eq_true] at h2
      rw [next_ready p t s h1 h2.1 h2.2, cycle_eq]
      exact ⟨adaptR_pos hp.1 hp.2.1 _,
             adaptQvar_pos hp.2.2.1 hp.2.2.2.1 _,
             adaptQvar_pos hp.2.2.1 hp.2.2.2.1 _⟩
  · have h1f : s.initialized = false := by simpa using h1
    by_cases hc : p.vol_period < (s.length : ℤ) + 1 ∧ t.volNaN = false
    · rw [next_warmup_init p t s h1f hc.1 hc.2]
      exact ⟨hR, hQa, hQd⟩
    · rw [next_warmup_skip p t s h1f hc]
      exact ⟨hR, hQa, hQd⟩

theorem noisePos_run {p : Params} (hp : StrictParams p) (f : ℕ → Tick)
    (n : ℕ) : NoisePos (runN p f n) := by
  induction n with
  | zero => exact noisePos_init hp
  | succ n ih => exact noisePos_step hp (f n) _ ih

theorem cycle_S_pos {p : Params} (hb : 0 < p.R_base) (hrs : 0 ≤ p.R_scale)
    (price vol : ℚ) {s : KFState} (h : CovInv s) :
    0 < (kalmanCycle p price vol s).S := by
  rw [cycle_eq]
  have h1 := (predictCov_psd h.2.1 h.2.2.2).a_nonneg
  have h2 := adaptR_pos hb hrs vol
  dsimp only
  linarith

end AdaptiveKF

namespace AdaptiveKF

/-! ### Run-level helper lemmas -/

/-- Any call that does not run a full cycle leaves `Q` unchanged. -/
theorem next_Q_preserved {p : Params} {t : Tick} {s : KFState}
    (h : s.initialized = false ∨ t.volNaN = true ∨ t.priceNaN = true) :
    (next p t s).1.Q = s.Q := by
  rcases h with h1 | h2
  · by_cases hc : p.vol_period < (s.length : ℤ) + 1 ∧ t.volNaN = false
    · rw [next_warmup_init p t s h1 hc.1 hc.2]
    · rw [next_warmup_skip p t s h1 hc]
  · by_cases h1 : s.initialized = true
    · rw [next_nan p t s h1 h2]
    · have h1f : s.initialized = false := by simpa using h1
      by_cases hc : p.vol_period < (s.length : ℤ) + 1 ∧ t.volNaN = false
      · rw [next_warmup_init p t s h1f hc.1 hc.2]
      · rw [next_warmup_skip p t s h1f hc]

/-- Once READY, one more call keeps the estimator READY. -/
theorem next_initialized_mono {p : Params} {t : Tick} {s : KFState}
    (h : s.initialized = true) : (next p t s).1.initialized = true := by
  by_cases h2 : t.volNaN = true ∨ t.priceNaN = true
  · rw [next_nan p t s h h2]; exact h
  · simp only [not_or, Bool.not_eq_true] at h2
    rw [next_ready p t s h h2.1 h2.2]

/-- Once READY, every later state of the run is READY. -/
theorem runN_initialized_mono (p : Params) (f : ℕ → Tick) {n m : ℕ}
    (hnm : n ≤ m) (h : (runN p f n).initialized = true) :
    (runN p f m).initialized = true := by
  induction m, hnm using Nat.le_induction with
  | base => exact h
  | succ m _ ih => exact next_initialized_mono ih

/-- A call on an uninitialized state never returns an estimate. -/
theorem next_uninit_out {p : Params} {t : Tick} {s : KFState}
    (h : s.initialized = false) : (next p t s).2 = none := by
  by_cases hc : p.vol_period < (s.length : ℤ) + 1 ∧ t.volNaN = false
  · rw [next_warmup_init p t s h hc.1 hc.2]
  · rw [next_warmup_skip p t s h hc]

/-- While every volatility so far was missing, the run only counts bars. -/
theorem runN_warmup (p : Params) (f : ℕ → Tick) {k : ℕ}
    (hbefore : ∀ j, j < k → (f j).volNaN = true) :
    ∀ j, j ≤ k → runN p f j = { initState p with length := j } := by
  intro j hj
  induction j with
  | zero => rfl
  | succ j ih =>
    have hjk : j < k := hj
    have hIH := ih (le_of_lt hjk)
    have hcond : ¬ (p.vol_period <
        ((({ initState p with length := j } : KFState).length : ℕ) : ℤ) + 1 ∧
        (f j).volNaN = false) := by
      rintro ⟨-, hv⟩
      rw [hbefore j hjk] at hv
      exact absurd hv (by simp)
    show (next p (f j) (runN p f j)).1 = _
    rw [hIH, next_warmup_skip p (f j) _ rfl hcond]

/-- A full cycle runs at step `j`: the state is READY and both inputs of
bar `j` are non-missing. -/
def CycleAt (p : Params) (f : ℕ → Tick) (j : ℕ) : Prop :=
  (runN p f j).initialized = true ∧ (f j).volNaN = false ∧
    (f j).priceNaN = false

/-! ### Shared concrete instances for witnesses -/

/-- A concrete READY state. -/
def sW : KFState :=
  ⟨25, 90, 1, Mat2.eye, Mat2.diag (1/1000) (1/1000), 1/5, true⟩

/-- A concrete tick with both inputs present. -/
def tW : Tick := ⟨100, false, 1/50, false⟩

/-- A concrete tick with missing volatility. -/
def tN : Tick := ⟨100, false, 0, true⟩

/-- The input stream whose volatility is always missing. -/
def fN : ℕ → Tick := fun _ => tN

/-- The input stream with every input present. -/
def fW : ℕ → Tick := fun _ => tW

/-- Default parameters with a zero-length volatility window. -/
def p0 : Params := { defaultParams with vol_period := 0 }

/-! ### Claims -/

/-- Claim C1: a call of `observe` in the READY state with non-missing
volatility and finite price performs one filter cycle whose committed
post-state satisfies exactly the spec equations: with v = max(vol, 1e-8),
R = R_base(1 + R_scale v), qVar = delta(1 + Q_scale v^2), Q = diag(qVar),
and the update step y = price - predicted level, S = P1[0,0] + R,
K = P1.Ht/S, level2 = level1 + K[0] y, velocity2 = velocity1 + K[1] y,
P2 = (I - K.H) P1. -/
theorem C1_ready_cycle_spec (p : Params) (t : Tick) (s : KFState)
    (h1 : s.initialized = true) (h2 : t.volNaN = false)
    (h3 : t.priceNaN = false) :
    (next p t s).1.R = adaptR p t.vol ∧
    (next p t s).1.Q = Mat2.diag (adaptQvar p t.vol) (adaptQvar p t.vol) ∧
    (next p t s).1.level =
      (s.level + s.velocity) +
        ((predictCov s.P s.Q).a / ((predictCov s.P s.Q).a + adaptR p t.vol)) *
          (t.price - (s.level + s.velocity)) ∧
    (next p t s).1.velocity =
      s.velocity +
        ((predictCov s.P s.Q).c / ((predictCov s.P s.Q).a + adaptR p t.vol)) *
          (t.price - (s.level + s.velocity)) ∧
    (next p t s).1.P = updateCov (predictCov s.P s.Q) (adaptR p t.vol) := by
  rw [next_ready p t s h1 h2 h3, cycle_eq]
  exact ⟨rfl, rfl, rfl, rfl, rfl⟩

/-- Witness for C1 at concrete inputs. -/
theorem C1_ready_cycle_spec_witness :
    sW.initialized = true ∧ tW.volNaN = false ∧ tW.priceNaN = false ∧
    ((next defaultParams tW sW).1.R = adaptR defaultParams tW.vol ∧
     (next defaultParams tW sW).1.Q =
       Mat2.diag (adaptQvar defaultParams tW.vol)
         (adaptQvar defaultParams tW.vol) ∧
     (next defaultParams tW sW).1.level =
       (sW.level + sW.velocity) +
         ((predictCov sW.P sW.Q).a /
             ((predictCov sW.P sW.Q).a + adaptR defaultParams tW.vol)) *
           (tW.price - (sW.level + sW.velocity)) ∧
     (next defaultParams tW sW).1.velocity =
       sW.velocity +
         ((predictCov sW.P sW.Q).c /
             ((predictCov sW.P sW.Q).a + adaptR defaultParams tW.vol)) *
           (tW.price - (sW.level + sW.velocity)) ∧
     (next defaultParams tW sW).1.P =
       updateCov (predictCov sW.P sW.Q) (adaptR defaultParams tW.vol)) :=
  ⟨rfl, rfl, rfl, C1_ready_cycle_spec defaultParams tW sW rfl rfl rfl⟩

end AdaptiveKF

namespace AdaptiveKF

/-- Claim C2: the predict step computes level1 = level + velocity,
velocity1 = velocity and P1 = F.P.Ft + Q with the Q set at the end of the
previous cycle (one-step lag: a non-cycle call never changes Q, and a
cycle commits the freshly adapted Q for the following cycle), and a run in
which no cycle has yet happened still carries the construction-time
Q = I * delta, so the first cycle after initialization predicts with it. -/
theorem C2_predict_lagged_Q (p : Params) :
    ((initState p).Q = Mat2.smul p.delta Mat2.eye)
  ∧ (∀ t s, s.initialized = false ∨ t.volNaN = true ∨ t.priceNaN = true →
      (next p t s).1.Q = s.Q)
  ∧ (∀ price vol s,
      (kalmanCycle p price vol s).x1 = ⟨s.level + s.velocity, s.velocity⟩ ∧
      (kalmanCycle p price vol s).P1 = predictCov s.P s.Q)
  ∧ (∀ t s, s.initialized = true → t.volNaN = false → t.priceNaN = false →
      (next p t s).1.Q =
        Mat2.diag (adaptQvar p t.vol) (adaptQvar p t.vol))
  ∧ (∀ f n, (∀ j, j < n → ¬ CycleAt p f j) →
      (runN p f n).Q = Mat2.smul p.delta Mat2.eye) := by
  refine ⟨rfl, fun t s h => next_Q_preserved h, ?_, ?_, ?_⟩
  · intro price vol s
    rw [cycle_eq]
    exact ⟨rfl, rfl⟩
  · intro t s h1 h2 h3
    rw [next_ready p t s h1 h2 h3, cycle_eq]
  · intro f n h
    induction n with
    | zero => rfl
    | succ n ih =>
      have hQ := ih (fun j hj => h j (Nat.lt_succ_of_lt hj))
      have hnc := h n (Nat.lt_succ_self n)
      show (next p (f n) (runN p f n)).1.Q = _
      by_cases h1 : (runN p f n).initialized = true
      · by_cases h2 : (f n).volNaN = true ∨ (f n).priceNaN = true
        · rw [next_Q_preserved (Or.inr h2), hQ]
        · exfalso
          simp only [not_or, Bool.not_eq_true] at h2
          exact hnc ⟨h1, h2.1, h2.2⟩
      · have h1f : (runN p f n).initialized = false := by simpa using h1
        rw [next_Q_preserved (Or.inl h1f), hQ]

/-- Witness for C2 at concrete inputs. -/
theorem C2_predict_lagged_Q_witness :
    ((initState defaultParams).Q = Mat2.smul defaultParams.delta Mat2.eye)
  ∧ (next defaultParams tN sW).1.Q = sW.Q
  ∧ ((kalmanCycle defaultParams 100 (1/50) sW).x1 =
       ⟨sW.level + sW.velocity, sW.velocity⟩ ∧
     (kalmanCycle defaultParams 100 (1/50) sW).P1 = predictCov sW.P sW.Q)
  ∧ (next defaultParams tW sW).1.Q =
      Mat2.diag (adaptQvar defaultParams tW.vol)
        (adaptQvar defaultParams tW.vol)
  ∧ (runN defaultParams fN 3).Q = Mat2.smul defaultParams.delta Mat2.eye := by
  have h := C2_predict_lagged_Q defaultParams
  exact ⟨h.1, h.2.1 tN sW (Or.inr (Or.inl rfl)), h.2.2.1 100 (1/50) sW,
         h.2.2.2.1 tW sW rfl rfl rfl,
         h.2.2.2.2 fN 3 (fun j _ hc => absurd hc.2.1 (by simp [fN, tN]))⟩

/-- Claim C4: a READY call with missing volatility or non-finite price
returns not-ready and leaves level, velocity, covariance, Q and R
unchanged, for any number of consecutive such calls. -/
theorem C4_nan_frame (p : Params) :
    (∀ t s, s.initialized = true → t.volNaN = true ∨ t.priceNaN = true →
       (next p t s).2 = none ∧ (next p t s).1.level = s.level ∧
       (next p t s).1.velocity = s.velocity ∧ (next p t s).1.P = s.P ∧
       (next p t s).1.Q = s.Q ∧ (next p t s).1.R = s.R ∧
       (next p t s).1.initialized = true)
  ∧ (∀ f s n, s.initialized = true →
       (∀ i, i < n → (f i).volNaN = true ∨ (f i).priceNaN = true) →
       (runFrom p f s n).level = s.level ∧
       (runFrom p f s n).velocity = s.velocity ∧
       (runFrom p f s n).P = s.P ∧ (runFrom p f s n).Q = s.Q ∧
       (runFrom p f s n).R = s.R ∧
       (runFrom p f s n).initialized = true) := by
  constructor
  · intro t s h1 h2
    rw [next_nan p t s h1 h2]
    exact ⟨rfl, rfl, rfl, rfl, rfl, rfl, h1⟩
  · intro f s n h1 h2
    induction n with
    | zero => exact ⟨rfl, rfl, rfl, rfl, rfl, h1⟩
    | succ n ih =>
      obtain ⟨hl, hv, hP, hQ, hR, hi⟩ :=
        ih (fun i hi2 => h2 i (Nat.lt_succ_of_lt hi2))
      have hstep : runFrom p f s (n + 1) = (next p (f n) (runFrom p f s n)).1 :=
        rfl
      rw [hstep, next_nan p (f n) _ hi (h2 n (Nat.lt_succ_self n))]
      exact ⟨hl, hv, hP, hQ, hR, hi⟩

/-- Witness for C4 at concrete inputs. -/
theorem C4_nan_frame_witness :
    sW.initialized = true ∧ (tN.volNaN = true ∨ tN.priceNaN = true) ∧
    ((next defaultParams tN sW).2 = none ∧
     (next defaultParams tN sW).1.level = sW.level ∧
     (next defaultParams tN sW).1.velocity = sW.velocity ∧
     (next defaultParams tN sW).1.P = sW.P ∧
     (next defaultParams tN sW).1.Q = sW.Q ∧
     (next defaultParams tN sW).1.R = sW.R ∧
     (next defaultParams tN sW).1.initialized = true) ∧
    ((runFrom defaultParams fN sW 4).level = sW.level ∧
     (runFrom defaultParams fN sW 4).velocity = sW.velocity ∧
     (runFrom defaultParams fN sW 4).P = sW.P ∧
     (runFrom defaultParams fN sW 4).Q = sW.Q ∧
     (runFrom defaultParams fN sW 4).R = sW.R ∧
     (runFrom defaultParams fN sW 4).initialized = true) := by
  have h := C4_nan_frame defaultParams
  exact ⟨rfl, Or.inl rfl,
         h.1 tN sW rfl (Or.inl rfl),
         h.2 fN sW 4 rfl (fun i _ => Or.inl rfl)⟩

/-- Claim C8: the UNINITIALIZED to READY transition happens at most once
over any run, and READY is terminal: no later call resets the flag. -/
theorem C8_ready_terminal (p : Params) :
    (∀ t s, s.initialized = true → (next p t s).1.initialized = true)
  ∧ (∀ f n m, n ≤ m → (runN p f n).initialized = true →
      (runN p f m).initialized = true)
  ∧ (∀ f n m,
      (runN p f n).initialized = false ∧
        (runN p f (n + 1)).initialized = true →
      (runN p f m).initialized = false ∧
        (runN p f (m + 1)).initialized = true →
      n = m) := by
  refine ⟨fun t s h => next_initialized_mono h,
          fun f n m h1 h2 => runN_initialized_mono p f h1 h2, ?_⟩
  intro f n m hn hm
  by_contra hne
  rcases Nat.lt_or_ge n m with h | h
  · have hT : (runN p f m).initialized = true :=
      runN_initialized_mono p f (Nat.succ_le_of_lt h) hn.2
    rw [hm.1] at hT
    exact absurd hT (by simp)
  · have h2 : m < n := lt_of_le_of_ne h (fun e => hne e.symm)
    have hT : (runN p f n).initialized = true :=
      runN_initialized_mono p f (Nat.succ_le_of_lt h2) hm.2
    rw [hn.1] at hT
    exact absurd hT (by simp)

/-- Witness for C8 at concrete inputs. -/
theorem C8_ready_terminal_witness :
    sW.initialized = true ∧
    (next defaultParams tN sW).1.initialized = true ∧
    (runN p0 fW 1).initialized = true ∧
    (runN p0 fW 5).initialized = true ∧
    ((runN p0 fW 0).initialized = false ∧
      (runN p0 fW 1).initialized = true) ∧
    (0 : ℕ) = 0 := by
  have h := C8_ready_terminal p0
  have h1 : (runN p0 fW 1).initialized = true := by decide
  refine ⟨rfl, (C8_ready_terminal defaultParams).1 tN sW rfl, h1,
          h.2.1 fW 1 5 (by norm_num) h1, ⟨rfl, h1⟩,
          h.2.2 fW 0 0 ⟨rfl, h1⟩ ⟨rfl, h1⟩⟩

/-- Claim C10: while UNINITIALIZED, a call that does not initialize leaves
every filter field unchanged, and initialization requires both that the
bar count strictly exceeds `vol_period` and that volatility is
non-missing. -/
theorem C10_uninit_frame (p : Params) (t : Tick) (s : KFState)
    (h : s.initialized = false) :
    ((¬ (p.vol_period < (s.length : ℤ) + 1 ∧ t.volNaN = false)) →
       (next p t s).1.level = s.level ∧
       (next p t s).1.velocity = s.velocity ∧
       (next p t s).1.P = s.P ∧ (next p t s).1.Q = s.Q ∧
       (next p t s).1.R = s.R ∧
       (next p t s).1.initialized = false)
  ∧ ((next p t s).1.initialized = true →
       p.vol_period < (s.length : ℤ) + 1 ∧ t.volNaN = false) := by
  constructor
  · intro hc
    rw [next_warmup_skip p t s h hc]
    exact ⟨rfl, rfl, rfl, rfl, rfl, h⟩
  · intro hinit
    by_contra hc
    rw [next_warmup_skip p t s h hc] at hinit
    have hbad : s.initialized = true := hinit
    rw [h] at hbad
    exact absurd hbad (by simp)

/-- Witness for C10 at concrete inputs. -/
theorem C10_uninit_frame_witness :
    (initState defaultParams).initialized = false ∧
    ¬ (defaultParams.vol_period <
        (((initState defaultParams).length : ℕ) : ℤ) + 1 ∧
       tN.volNaN = false) ∧
    ((next defaultParams tN (initState defaultParams)).1.level =
       (initState defaultParams).level ∧
     (next defaultParams tN (initState defaultParams)).1.velocity =
       (initState defaultParams).velocity ∧
     (next defaultParams tN (initState defaultParams)).1.P =
       (initState defaultParams).P ∧
     (next defaultParams tN (initState defaultParams)).1.Q =
       (initState defaultParams).Q ∧
     (next defaultParams tN (initState defaultParams)).1.R =
       (initState defaultParams).R ∧
     (next defaultParams tN (initState defaultParams)).1.initialized =
       false) := by
  refine ⟨rfl, by decide, ?_⟩
  exact (C10_uninit_frame defaultParams tN (initState defaultParams) rfl).1
    (by decide)

end AdaptiveKF

namespace AdaptiveKF

/-- Input stream refuting claim C3 as stated: volatility present at bar 0,
missing from bar 1 on. -/
def fC3 : ℕ → Tick :=
  fun n => if n = 0 then ⟨100, false, 1/100, false⟩ else ⟨100, false, 0, true⟩

/-- Counterexample to claim C3 as stated: with vol_period = 0, the first
call carries a non-missing volatility and initializes the filter (itself
returning not-ready), but the very next call has missing volatility and
returns not-ready too — contradicting the claim that the call after the
transition returns a ready estimate regardless of its volatility. -/
theorem C3_counterexample :
    (fC3 0).volNaN = false ∧ outN p0 fC3 0 = none ∧
    (runN p0 fC3 1).initialized = true ∧ (fC3 1).volNaN = true ∧
    outN p0 fC3 1 = none := by
  refine ⟨rfl, by decide, by decide, rfl, by decide⟩

/-- Claim C3 (amended): provided the input stream respects the indicator
contract (volatility missing while the rolling window is unfilled, i.e.
for the first vol_period bars), `observe` returns not-ready on every call
up to and including the first call k with non-missing volatility; call k
transitions the estimator to READY with level = price, velocity = 0 and
covariance = I * initial_cov; and the very next call returns a ready
estimate provided its volatility is non-missing and its price finite. -/
theorem C3_warmup_amended (p : Params) (f : ℕ → Tick) (k : ℕ)
    (hwin : ∀ i : ℕ, (i : ℤ) < p.vol_period → (f i).volNaN = true)
    (hk : (f k).volNaN = false)
    (hbefore : ∀ j, j < k → (f j).volNaN = true) :
    (∀ j, j ≤ k → outN p f j = none)
  ∧ (runN p f (k + 1)).initialized = true
  ∧ (runN p f (k + 1)).level = (f k).price
  ∧ (runN p f (k + 1)).velocity = 0
  ∧ (runN p f (k + 1)).P = Mat2.smul p.initial_cov Mat2.eye
  ∧ ((f (k + 1)).volNaN = false → (f (k + 1)).priceNaN = false →
      (outN p f (k + 1)).isSome = true) := by
  have hklen : p.vol_period < (k : ℤ) + 1 := by
    by_contra hlt
    push_neg at hlt
    have hki : (k : ℤ) < p.vol_period := by linarith
    rw [hwin k hki] at hk
    exact absurd hk (by simp)
  have hrk : runN p f k = { initState p with length := k } :=
    runN_warmup p f hbefore k le_rfl
  have hinitk : runN p f (k + 1) =
      KFState.mk (k + 1) (f k).price 0 (Mat2.smul p.initial_cov Mat2.eye)
        (initState p).Q (initState p).R true := by
    show (next p (f k) (runN p f k)).1 = _
    rw [hrk, next_warmup_init p (f k) _ rfl hklen hk]
  have hini : (runN p f (k + 1)).initialized = true := by rw [hinitk]
  refine ⟨?_, hini, by rw [hinitk], by rw [hinitk], by rw [hinitk], ?_⟩
  · intro j hj
    rcases Nat.lt_or_ge j k with hjk | hjk
    · unfold outN
      rw [runN_warmup p f hbefore j (le_of_lt hjk)]
      exact next_uninit_out rfl
    · have hje : j = k := le_antisymm hj hjk
      subst hje
      unfold outN
      rw [hrk]
      exact next_uninit_out rfl
  · intro hv hp2
    unfold outN
    rw [next_ready p (f (k + 1)) _ hini hv hp2]
    rfl

/-- Witness for the amended C3 at concrete inputs. -/
theorem C3_warmup_amended_witness :
    (∀ i : ℕ, (i : ℤ) < p0.vol_period → (fW i).volNaN = true) ∧
    (fW 0).volNaN = false ∧ (∀ j, j < 0 → (fW j).volNaN = true) ∧
    ((∀ j, j ≤ 0 → outN p0 fW j = none)
     ∧ (runN p0 fW 1).initialized = true
     ∧ (runN p0 fW 1).level = (fW 0).price
     ∧ (runN p0 fW 1).velocity = 0
     ∧ (runN p0 fW 1).P = Mat2.smul p0.initial_cov Mat2.eye
     ∧ ((fW 1).volNaN = false → (fW 1).priceNaN = false →
         (outN p0 fW 1).isSome = true)) := by
  have hwin : ∀ i : ℕ, (i : ℤ) < p0.vol_period → (fW i).volNaN = true :=
    fun i hi => absurd hi (Int.natCast_nonneg i).not_lt
  have hbefore : ∀ j, j < 0 → (fW j).volNaN = true :=
    fun j hj => absurd hj (Nat.not_lt_zero j)
  exact ⟨hwin, rfl, hbefore, C3_warmup_amended p0 fW 0 hwin rfl hbefore⟩

/-- Claim C5: under exact arithmetic, with the spec's parameter-sign
preconditions (positive base measurement noise, nonnegative scales,
process noise and initial covariance scale), symmetry and positive
semidefiniteness of the stored covariance are preserved by every call
from any symmetric PSD covariance and process noise, and hold at every
reachable state of every run. -/
theorem C5_cov_symm_psd (p : Params) (hp : GoodParams p) :
    (∀ t s, s.P.Symm → s.P.PSD → s.Q.Symm → s.Q.PSD →
       ((next p t s).1.P.Symm ∧ (next p t s).1.P.PSD))
  ∧ (∀ f n, (runN p f n).P.Symm ∧ (runN p f n).P.PSD) := by
  constructor
  · intro t s h1 h2 h3 h4
    have h := covInv_step hp t s ⟨h1, h2, h3, h4⟩
    exact ⟨h.1, h.2.1⟩
  · intro f n
    have h := covInv_run hp f n
    exact ⟨h.1, h.2.1⟩

/-- Witness for C5 at concrete inputs. -/
theorem C5_cov_symm_psd_witness :
    GoodParams defaultParams ∧
    (sW.P.Symm ∧ sW.P.PSD ∧ sW.Q.Symm ∧ sW.Q.PSD) ∧
    ((next defaultParams tW sW).1.P.Symm ∧
      (next defaultParams tW sW).1.P.PSD) ∧
    ((runN defaultParams fW 3).P.Symm ∧
      (runN defaultParams fW 3).P.PSD) := by
  have hgp : GoodParams defaultParams := by
    refine ⟨?_, ?_, ?_, ?_, ?_⟩ <;> norm_num [defaultParams]
  have hPs : sW.P.Symm := rfl
  have hPp : sW.P.PSD := diag_psd (by norm_num) (by norm_num)
  have hQs : sW.Q.Symm := rfl
  have hQp : sW.Q.PSD := diag_psd (by norm_num) (by norm_num)
  exact ⟨hgp, ⟨hPs, hPp, hQs, hQp⟩,
         (C5_cov_symm_psd defaultParams hgp).1 tW sW hPs hPp hQs hQp,
         (C5_cov_symm_psd defaultParams hgp).2 fW 3⟩

end AdaptiveKF

namespace AdaptiveKF

/-- Parameter set refuting claim C6 as stated: `delta = 0` is admitted by
the claim ("non-negative baseProcessNoise") but zeroes the adapted Q. -/
def pC6 : Params :=
  { vol_period := 0, delta := 0, R_base := 1/10, R_scale := 1,
    Q_scale_factor := 1/2, initial_cov := 1 }

/-- Counterexample to claim C6 as stated: with baseProcessNoise = 0 (a
non-negative value admitted by the claim's preconditions), the adapted
process-noise diagonal after the first full cycle is 0, not strictly
positive. -/
theorem C6_counterexample :
    0 < pC6.R_base ∧ 0 ≤ pC6.delta ∧ 0 ≤ pC6.initial_cov ∧
    ¬ (0 < (runN pC6 fW 2).Q.a) := by
  have h1 : runN pC6 fW 1 =
      KFState.mk 1 (100 : ℚ) 0 (Mat2.smul pC6.initial_cov Mat2.eye)
        (initState pC6).Q (initState pC6).R true := by
    show (next pC6 (fW 0) (runN pC6 fW 0)).1 = _
    rw [next_warmup_init pC6 (fW 0) _ rfl (by decide) rfl]
    rfl
  have h2 : (runN pC6 fW 2).Q.a = adaptQvar pC6 (1/50) := by
    show (next pC6 (fW 1) (runN pC6 fW 1)).1.Q.a = _
    rw [h1, next_ready pC6 (fW 1) _ rfl rfl rfl, cycle_eq]
    rfl
  refine ⟨by norm_num [pC6], le_refl 0, by norm_num [pC6], ?_⟩
  rw [h2]
  norm_num [adaptQvar, pC6]

/-- Claim C6 (amended): with strictly positive baseMeasurementNoise and
baseProcessNoise and nonnegative noise scales and initial covariance
scale, the stored R and the diagonal entries of the stored Q are strictly
positive at every state of every run, and the update divisor
S = P1[0,0] + R of every cycle actually executed is strictly positive, so
the gain computation never divides by zero (the embedding is total: no
call can raise). -/
theorem C6_noise_positive_amended (p : Params) (hp : StrictParams p)
    (f : ℕ → Tick) (n : ℕ) :
    0 < (runN p f n).R ∧ 0 < (runN p f n).Q.a ∧ 0 < (runN p f n).Q.d ∧
    ((runN p f n).initialized = true → (f n).volNaN = false →
      (f n).priceNaN = false →
      0 < (kalmanCycle p (f n).price (f n).vol (runN p f n)).S) := by
  obtain ⟨hR, hQa, hQd⟩ := noisePos_run hp f n
  refine ⟨hR, hQa, hQd, ?_⟩
  intro _ _ _
  exact cycle_S_pos hp.1 hp.2.1 _ _ (covInv_run hp.good f n)

/-- Witness for the amended C6 at concrete inputs. -/
theorem C6_noise_positive_amended_witness :
    StrictParams p0 ∧
    (0 < (runN p0 fW 2).R ∧ 0 < (runN p0 fW 2).Q.a ∧
     0 < (runN p0 fW 2).Q.d ∧
     0 < (kalmanCycle p0 (fW 2).price (fW 2).vol (runN p0 fW 2)).S) := by
  have hp : StrictParams p0 := by
    refine ⟨?_, ?_, ?_, ?_, ?_⟩ <;> norm_num [p0, defaultParams]
  have h := C6_noise_positive_amended p0 hp fW 2
  exact ⟨hp, h.1, h.2.1, h.2.2.1, h.2.2.2 (by decide) rfl rfl⟩

/-- Counterexample to claim C7 as stated: at the default configuration,
the volatilities 0 and 1e-9 satisfy v2 > v1 but are both clamped to the
1e-8 floor, so the adapted R and Q[0,0] are equal, not strictly
increasing. -/
theorem C7_counterexample :
    (0 : ℚ) < 1/1000000000 ∧
    ¬ ((kalmanCycle defaultParams 100 0 sW).R <
        (kalmanCycle defaultParams 100 (1/1000000000) sW).R) ∧
    ¬ ((kalmanCycle defaultParams 100 0 sW).Q.a <
        (kalmanCycle defaultParams 100 (1/1000000000) sW).Q.a) := by
  have eR : (kalmanCycle defaultParams 100 (1/1000000000) sW).R =
      (kalmanCycle defaultParams 100 0 sW).R := by
    rw [cycle_eq, cycle_eq]
    show adaptR defaultParams (1/1000000000) = adaptR defaultParams 0
    unfold adaptR
    rw [max_eq_right (by norm_num [volFloor]),
        max_eq_right (by norm_num [volFloor])]
  have eQ : (kalmanCycle defaultParams 100 (1/1000000000) sW).Q.a =
      (kalmanCycle defaultParams 100 0 sW).Q.a := by
    rw [cycle_eq, cycle_eq]
    show adaptQvar defaultParams (1/1000000000) = adaptQvar defaultParams 0
    unfold adaptQvar
    rw [max_eq_right (by norm_num [volFloor]),
        max_eq_right (by norm_num [volFloor])]
  exact ⟨by norm_num, by rw [eR]; exact lt_irrefl _,
         by rw [eQ]; exact lt_irrefl _⟩

/-- Claim C7 (amended): for volatilities at or above the 1e-8 clamp floor
and strictly positive R_base, R_scale, delta and Q_scale_factor, the
adapted R and Q[0,0] produced by a cycle are strictly increasing in the
volatility input, holding price and prior state fixed. -/
theorem C7_monotone_amended (p : Params) (price v1 v2 : ℚ) (s : KFState)
    (hb : 0 < p.R_base) (hs : 0 < p.R_scale) (hd : 0 < p.delta)
    (hq : 0 < p.Q_scale_factor) (h1 : volFloor ≤ v1) (h12 : v1 < v2) :
    (kalmanCycle p price v1 s).R < (kalmanCycle p price v2 s).R ∧
    (kalmanCycle p price v1 s).Q.a < (kalmanCycle p price v2 s).Q.a := by
  have h2 : volFloor ≤ v2 := le_trans h1 h12.le
  have e1 : max v1 volFloor = v1 := max_eq_left h1
  have e2 : max v2 volFloor = v2 := max_eq_left h2
  have hv1 : 0 < v1 := lt_of_lt_of_le volFloor_pos h1
  rw [cycle_eq, cycle_eq]
  constructor
  · show adaptR p v1 < adaptR p v2
    simp only [adaptR, e1, e2]
    nlinarith [mul_pos (mul_pos hb hs) (sub_pos.mpr h12)]
  · show (Mat2.diag (adaptQvar p v1) (adaptQvar p v1)).a <
        (Mat2.diag (adaptQvar p v2) (adaptQvar p v2)).a
    simp only [Mat2.diag, adaptQvar, e1, e2]
    nlinarith [mul_pos (sub_pos.mpr h12) (by linarith : (0:ℚ) < v2 + v1),
               mul_pos hd hq]

/-- Witness for the amended C7 at concrete inputs. -/
theorem C7_monotone_amended_witness :
    (0 < defaultParams.R_base ∧ 0 < defaultParams.R_scale ∧
     0 < defaultParams.delta ∧ 0 < defaultParams.Q_scale_factor ∧
     volFloor ≤ (1/100 : ℚ) ∧ (1/100 : ℚ) < 1/50) ∧
    (kalmanCycle defaultParams 100 (1/100) sW).R <
      (kalmanCycle defaultParams 100 (1/50) sW).R ∧
    (kalmanCycle defaultParams 100 (1/100) sW).Q.a <
      (kalmanCycle defaultParams 100 (1/50) sW).Q.a := by
  refine ⟨⟨?_, ?_, ?_, ?_, ?_, ?_⟩, ?_⟩
  any_goals norm_num [defaultParams, volFloor]
  exact C7_monotone_amended defaultParams 100 (1/100) (1/50) sW
    (by norm_num [defaultParams]) (by norm_num [defaultParams])
    (by norm_num [defaultParams]) (by norm_num [defaultParams])
    (by norm_num [volFloor]) (by norm_num)

/-- Parameters with an invalid (negative) volatility window. -/
def pC9 : Params := { defaultParams with vol_period := -1 }

/-- Counterexample to claim C9 as stated: construction with a negative
volatilityWindow does not fail fast — it succeeds, producing the ordinary
initial state, and the run proceeds at runtime (here the first
non-missing-volatility call already initializes the filter because the
bar-count test is vacuous). -/
theorem C9_counterexample :
    pC9.vol_period < 0 ∧
    initState pC9 = KFState.mk 0 0 0 (Mat2.smul pC9.initial_cov Mat2.eye)
      (Mat2.smul pC9.delta Mat2.eye) pC9.R_base false ∧
    (next pC9 tW (initState pC9)).1.initialized = true := by
  refine ⟨by decide, rfl, by decide⟩

/-- Claim C9 (amended): construction performs no validation and never
fails: every parameter record, valid or not, yields the ordinary initial
state, and an invalid negative volatilityWindow merely makes the warm-up
bar-count test vacuously true, deferring the consequence to runtime
(initialization at the first call with non-missing volatility). -/
theorem C9_no_validation_amended (q : Params) :
    initState q = KFState.mk 0 0 0 (Mat2.smul q.initial_cov Mat2.eye)
      (Mat2.smul q.delta Mat2.eye) q.R_base false
  ∧ (∀ t : Tick, q.vol_period < 0 → t.volNaN = false →
      (next q t (initState q)).1.initialized = true) := by
  refine ⟨rfl, ?_⟩
  intro t hneg hv
  have h2 : q.vol_period < (((initState q).length : ℕ) : ℤ) + 1 := by
    have h0 : (((initState q).length : ℕ) : ℤ) = 0 := rfl
    rw [h0]
    linarith
  rw [next_warmup_init q t (initState q) rfl h2 hv]

/-- Witness for the amended C9 at concrete inputs. -/
theorem C9_no_validation_amended_witness :
    pC9.vol_period < 0 ∧ tW.volNaN = false ∧
    initState pC9 = KFState.mk 0 0 0 (Mat2.smul pC9.initial_cov Mat2.eye)
      (Mat2.smul pC9.delta Mat2.eye) pC9.R_base false ∧
    (next pC9 tW (initState pC9)).1.initialized = true := by
  have h := C9_no_validation_amended pC9
  exact ⟨by decide, rfl, h.1, h.2 tW (by decide) rfl⟩

end AdaptiveKF
